import Mathlib

/-!
Verification development for the Pi self-monitor program
(`pi_self_monitor.py`).

The program is a single-process host monitor: a background poll loop
collects system, ad-blocker (Pi-hole) and VPN (PiVPN) facts into a
shared in-memory store, and HTTP handlers project that store into a
health JSON view, a Prometheus-style metrics text and an HTML
dashboard.

The shallow embedding below mirrors the source:
* external command execution (`subprocess`) is modelled by an outcome
  type `CmdOutcome`; the command-runner helper's `try/except` around it
  becomes a total function on outcomes;
* file reads and third-party output parsing (thermal sysfs files, JSON
  from the ad-blocker CLI, text-to-number coercion) are modelled by
  oracle parameters, since the values they deliver, not their I/O, are
  what the program's logic branches on;
* Python floats are modelled as rationals (ℚ);
* Python dict reads with `.get` (which yield `None` for an absent key)
  are modelled with `Option` fields;
* the shared `STATE` dict and the poll loop's writes to it are modelled
  as a small-step system whose micro-steps are the individual dict-key
  assignments the loop performs, with each stored record abstracted by
  the index of the poll cycle that produced it.
-/

/-! ### Python string primitives used by the source -/

/-- Python's `str.strip()`: remove leading and trailing whitespace.
Defined over the character list so the kernel can evaluate it. -/
def pyStrip (s : String) : String :=
  ⟨(((s.data.dropWhile Char.isWhitespace).reverse).dropWhile
      Char.isWhitespace).reverse⟩

/-- Split a character list at newline characters. -/
def splitNl : List Char → List (List Char)
  | [] => [[]]
  | '\n' :: rest => [] :: splitNl rest
  | c :: rest =>
    match splitNl rest with
    | [] => [[c]]
    | g :: gs => (c :: g) :: gs

/-! ### Command runner (`run_cmd` in the source) -/

/-- Outcome of executing an external command, as the source's
`subprocess.check_output` call can experience it: captured stdout on
success, or one of the failure modes its `except` clause swallows. -/
inductive CmdOutcome where
  | success (out : String)
  | nonzeroExit
  | timedOut
  | missingBinary
  | decodeFailure
  deriving DecidableEq

/-- The source's command runner: on success it decodes and strips the
captured standard output; on any failure it returns the empty string
(the `except Exception: return ""` branch).  Totality of this Lean
function is the embedding of "never raises to the caller". -/
def runCmd : CmdOutcome → String
  | .success out => pyStrip out
  | .nonzeroExit => ""
  | .timedOut => ""
  | .missingBinary => ""
  | .decodeFailure => ""

/-! ### Service liveness (`service_active`) -/

/-- `service_active(unit_name)`: false for an empty unit name, else
invoke `systemctl is-active <unit>` (behaviour of the service manager is
the oracle `sysctl`) and compare the stripped output with "active". -/
def service_active (sysctl : String → CmdOutcome) (unit : String) : Bool :=
  if unit = "" then false
  else pyStrip (runCmd (sysctl unit)) == "active"

/-! ### CPU temperature (`get_cpu_temp_c`) -/

/-- The raw-value interpretation inside `get_cpu_temp_c`: values above
200 are taken to be milli-degrees and divided by 1000, anything else is
already degrees Celsius. -/
def interpTempVal (v : ℚ) : ℚ :=
  if v > 200 then v / 1000 else v

/-- `get_cpu_temp_c`: walk the ordered candidate thermal paths; each
list entry is `some v` when that path exists, is readable and its
content parses as a number `v`, and `none` otherwise (the source's
`except: continue`).  The first parseable value is interpreted; if no
candidate yields one the result is `none` rather than an error. -/
def get_cpu_temp_c : List (Option ℚ) → Option ℚ
  | [] => none
  | some v :: _ => some (interpTempVal v)
  | none :: rest => get_cpu_temp_c rest

/-! ### VPN client count (inside `collect_pivpn_stats`) -/

/-- The non-blank lines of a command output, as the source's
`[l for l in raw.splitlines() if l.strip()]`.  (Python's `splitlines`
drops a final empty segment after a trailing newline; since blank
segments are filtered out here anyway, splitting at newline characters
is equivalent.) -/
def nonBlankLines (raw : String) : List String :=
  ((splitNl raw.data).map (fun cs => (⟨cs⟩ : String))).filter
    (fun l => pyStrip l != "")

/-- The client-count heuristic inside `collect_pivpn_stats`: if the
captured output is non-empty, count its non-blank lines; when there are
more than 3 (the fixed header allowance) the client count is that count
minus 3, otherwise it is absent. -/
def pivpnClientCount (raw : String) : Option ℕ :=
  if raw ≠ "" then
    let lines := nonBlankLines raw
    if lines.length > 3 then some (lines.length - 3) else none
  else none

/-- Record produced by `collect_pivpn_stats`. -/
structure PivpnRecord where
  service_ok : Bool
  connected_clients : Option ℕ
  deriving DecidableEq

/-- The configured VPN unit-name list from the source. -/
def PIVPN_SERVICES : List String :=
  ["wg-quick@wg0.service", "openvpn.service", "openvpn-server@server.service"]

/-- `collect_pivpn_stats`: liveness is the OR of `service_active` over
the configured unit list; the client count comes from the `pivpn -c`
output (an outcome fed through the command runner). -/
def collect_pivpn_stats (sysctl : String → CmdOutcome)
    (units : List String) (vpnOut : CmdOutcome) : PivpnRecord :=
  { service_ok := units.any (service_active sysctl)
    connected_clients := pivpnClientCount (runCmd vpnOut) }

/-! ### Ad-blocker stats (`collect_pihole_stats`) -/

/-- A scalar JSON value as the ad-blocker's status command can produce
it.  A JSON `null` value and an absent key are merged into `Option`'s
`none`, exactly as Python's `dict.get` makes them indistinguishable to
the source.  (Nested arrays/objects do not occur in this tool's status
output and are not modelled.) -/
inductive JsonVal where
  | num (q : ℚ)
  | str (s : String)
  | bool (b : Bool)
  deriving DecidableEq

/-- The configured ad-blocker unit-name list from the source. -/
def PIHOLE_SERVICES : List String := ["pihole-FTL.service"]

/-- The fixed allowlist of stats keys extracted by the source. -/
def PIHOLE_KEYS : List String :=
  ["dns_queries_today", "ads_blocked_today", "ads_percentage_today",
   "domains_being_blocked"]

/-- Record produced by `collect_pihole_stats`: the liveness flag and the
stats mapping (an association list, mirroring insertion order of the
source's dict; each stored value is `data.get(key)`, hence optional). -/
structure PiholeRecord where
  service_ok : Bool
  stats : List (String × Option JsonVal)
  deriving DecidableEq

/-- `collect_pihole_stats`: liveness is the OR of `service_active` over
the configured unit list.  The status JSON text comes from the command
runner; if it is non-empty it is parsed (`parseJson` is the oracle for
Python's `json.loads`, returning `none` on malformed input, the
source's `except: pass`).  On successful parse the stats dict is built
from exactly the allowlist keys, each valued `data.get(key)`; on empty
output or parse failure the stats mapping stays empty. -/
def collect_pihole_stats (sysctl : String → CmdOutcome)
    (units : List String) (piholeOut : CmdOutcome)
    (parseJson : String → Option (List (String × JsonVal))) : PiholeRecord :=
  let raw := runCmd piholeOut
  let stats : List (String × Option JsonVal) :=
    if raw ≠ "" then
      match parseJson raw with
      | some data => PIHOLE_KEYS.map (fun k => (k, data.lookup k))
      | none => []
    else []
  { service_ok := units.any (service_active sysctl)
    stats := stats }

/-! ### Theorems for the command runner, liveness, temperature and
client-count claims -/

/-- C8: the command runner is a total function: every failure mode
(non-zero exit, timeout, missing binary, decode failure) yields the
empty text, and success yields the decoded captured standard output
(whitespace-stripped, as the source applies `.strip()`); no invocation
raises, since `runCmd` is total by construction. -/
theorem runCmd_total_fallback :
    runCmd CmdOutcome.nonzeroExit = "" ∧
    runCmd CmdOutcome.timedOut = "" ∧
    runCmd CmdOutcome.missingBinary = "" ∧
    runCmd CmdOutcome.decodeFailure = "" ∧
    (∀ out : String, runCmd (CmdOutcome.success out) = pyStrip out) ∧
    (∀ o : CmdOutcome, (∀ out, o ≠ CmdOutcome.success out) → runCmd o = "") := by
  refine ⟨rfl, rfl, rfl, rfl, fun _ => rfl, ?_⟩
  intro o h
  cases o with
  | success out => exact absurd rfl (h out)
  | nonzeroExit => rfl
  | timedOut => rfl
  | missingBinary => rfl
  | decodeFailure => rfl

/-- Closed witness for the hypothesis-bearing part of the command-runner
theorem: the timeout outcome concretely maps to empty text. -/
theorem runCmd_total_fallback_witness : runCmd CmdOutcome.timedOut = "" :=
  (runCmd_total_fallback).2.2.2.2.2 CmdOutcome.timedOut (by intro out h; cases h)

/-- A concrete service-manager oracle in which only `b.service` reports
active, used to exercise the OR semantics at the spec's own example. -/
def onlyBActive : String → CmdOutcome :=
  fun u => if u = "b.service" then .success "active" else .success "inactive"

/-- A concrete oracle in which every unit reports inactive. -/
def allInactive : String → CmdOutcome := fun _ => .success "inactive"

/-- C9: a service's liveness is the logical OR of `service_active` over
the configured unit list: it is true exactly when some unit of the list
reports active; with the list `["a.service", "b.service"]` and only
`b.service` active it is true; for the empty list, and for an
all-inactive manager, it is false. -/
theorem service_ok_or_semantics :
    (∀ (sysctl : String → CmdOutcome) (units : List String),
      units.any (service_active sysctl) = true ↔
        ∃ u ∈ units, service_active sysctl u = true) ∧
    (collect_pivpn_stats onlyBActive ["a.service", "b.service"]
        CmdOutcome.missingBinary).service_ok = true ∧
    (∀ sysctl : String → CmdOutcome,
      (collect_pivpn_stats sysctl [] CmdOutcome.missingBinary).service_ok = false) ∧
    (collect_pivpn_stats allInactive ["a.service", "b.service"]
        CmdOutcome.missingBinary).service_ok = false := by
  refine ⟨?_, by decide, fun sysctl => rfl, by decide⟩
  intro sysctl units
  exact List.any_eq_true

/-- C4: raw thermal readings above 200 are divided by 1000 and readings
at most 200 are returned unchanged (so 45000 ↦ 45, 199.9 is unchanged,
200.1 is divided); when no candidate path yields a parseable value the
temperature is absent, and `get_cpu_temp_c` is total so no error is
possible. -/
theorem cpu_temp_interpretation :
    (∀ v : ℚ, v > 200 → interpTempVal v = v / 1000) ∧
    (∀ v : ℚ, v ≤ 200 → interpTempVal v = v) ∧
    interpTempVal 45000 = 45 ∧
    interpTempVal (1999 / 10) = 1999 / 10 ∧
    interpTempVal (2001 / 10) = 2001 / 10000 ∧
    (∀ reads : List (Option ℚ), (∀ r ∈ reads, r = none) →
      get_cpu_temp_c reads = none) := by
  refine ⟨?_, ?_, by norm_num [interpTempVal], by norm_num [interpTempVal],
    by norm_num [interpTempVal], ?_⟩
  · intro v hv
    simp [interpTempVal, hv]
  · intro v hv
    simp [interpTempVal, not_lt.mpr hv]
  · intro reads h
    induction reads with
    | nil => rfl
    | cons r rest ih =>
      have hr : r = none := h r (List.mem_cons_self r rest)
      subst hr
      exact ih (fun x hx => h x (List.mem_cons_of_mem _ hx))

/-- Closed witness for the temperature theorem: concrete readings on
each side of the 200 threshold, and an all-unreadable path list. -/
theorem cpu_temp_interpretation_witness :
    interpTempVal 45000 = 45000 / 1000 ∧
    interpTempVal 100 = 100 ∧
    get_cpu_temp_c [none, none] = none :=
  ⟨cpu_temp_interpretation.1 45000 (by norm_num),
   cpu_temp_interpretation.2.1 100 (by norm_num),
   cpu_temp_interpretation.2.2.2.2.2 [none, none] (by simp)⟩

/-- C3: the client count is defined exactly when the output has more
than 3 non-blank lines, in which case it is that count minus 3 (hence
always at least 1 — never negative or an underflowed zero); with 3
header lines plus 2 data lines it is 2, and with only 2 lines it is
absent. -/
theorem pivpn_client_count_spec :
    (∀ raw : String,
      (3 < (nonBlankLines raw).length ∧
        pivpnClientCount raw = some ((nonBlankLines raw).length - 3)) ∨
      ((nonBlankLines raw).length ≤ 3 ∧ pivpnClientCount raw = none)) ∧
    (∀ raw n, pivpnClientCount raw = some n → 1 ≤ n) ∧
    pivpnClientCount "header one\nheader two\nheader three\nclient A\nclient B"
      = some 2 ∧
    pivpnClientCount "header one\nheader two" = none := by
  refine ⟨?_, ?_, by decide, by decide⟩
  · intro raw
    by_cases hraw : raw = ""
    · subst hraw
      right
      exact ⟨by decide, by decide⟩
    · by_cases hlen : 3 < (nonBlankLines raw).length
      · left
        refine ⟨hlen, ?_⟩
        simp [pivpnClientCount, hraw, hlen]
      · right
        refine ⟨not_lt.mp hlen, ?_⟩
        simp [pivpnClientCount, hraw, hlen]
  · intro raw n h
    unfold pivpnClientCount at h
    by_cases hraw : raw = ""
    · simp [hraw] at h
    · rw [if_pos hraw] at h
      by_cases hlen : 3 < (nonBlankLines raw).length
      · rw [if_pos hlen] at h
        have hn : (nonBlankLines raw).length - 3 = n := Option.some.inj h
        omega
      · rw [if_neg hlen] at h
        exact absurd h (by simp)

/-- Closed witness for the client-count theorem: a concrete 5-line
output yields a defined count of at least 1. -/
theorem pivpn_client_count_spec_witness :
    1 ≤ 2 ∧ pivpnClientCount "a\nb\nc\nd\ne" = some 2 :=
  ⟨pivpn_client_count_spec.2.1 "a\nb\nc\nd\ne" 2 (by decide), by decide⟩

/-- C7: ad-blocker stats collection is fault tolerant: empty command
output or a JSON parse failure yields an empty stats mapping; the
liveness flag is always exactly the OR of the unit liveness checks,
whatever the status output; and every key of the stats mapping belongs
to the fixed four-key allowlist.  `collect_pihole_stats` is total, so
no input can make the collection raise. -/
theorem pihole_stats_fault_tolerance :
    (∀ (sysctl : String → CmdOutcome) (units : List String)
      (piholeOut : CmdOutcome)
      (parseJson : String → Option (List (String × JsonVal))),
      (runCmd piholeOut = "" ∨ parseJson (runCmd piholeOut) = none) →
        (collect_pihole_stats sysctl units piholeOut parseJson).stats = []) ∧
    (∀ (sysctl : String → CmdOutcome) (units : List String)
      (piholeOut : CmdOutcome)
      (parseJson : String → Option (List (String × JsonVal))),
      (collect_pihole_stats sysctl units piholeOut parseJson).service_ok =
        units.any (service_active sysctl)) ∧
    (∀ (sysctl : String → CmdOutcome) (units : List String)
      (piholeOut : CmdOutcome)
      (parseJson : String → Option (List (String × JsonVal)))
      (kv : String × Option JsonVal),
      kv ∈ (collect_pihole_stats sysctl units piholeOut parseJson).stats →
        kv.1 ∈ PIHOLE_KEYS) := by
  refine ⟨?_, ?_, ?_⟩
  · intro sysctl units piholeOut parseJson h
    rcases h with h | h
    · simp [collect_pihole_stats, h]
    · by_cases hraw : runCmd piholeOut = ""
      · simp [collect_pihole_stats, hraw]
      · simp [collect_pihole_stats, hraw, h]
  · intro sysctl units piholeOut parseJson
    rfl
  · intro sysctl units piholeOut parseJson kv hkv
    unfold collect_pihole_stats at hkv
    simp only at hkv
    by_cases hraw : runCmd piholeOut = ""
    · simp [hraw] at hkv
    · rw [if_pos hraw] at hkv
      cases hp : parseJson (runCmd piholeOut) with
      | none => rw [hp] at hkv; simp at hkv
      | some data =>
        rw [hp] at hkv
        rcases List.mem_map.mp hkv with ⟨k, hk, hkeq⟩
        rw [← hkeq]
        exact hk

/-- Closed witness for the fault-tolerance theorem: a missing binary
(empty output) with an always-failing JSON parse yields empty stats and
leaves liveness to the unit check alone. -/
theorem pihole_stats_fault_tolerance_witness :
    (collect_pihole_stats allInactive PIHOLE_SERVICES
      CmdOutcome.missingBinary (fun _ => none)).stats = [] ∧
    "dns_queries_today" ∈ PIHOLE_KEYS :=
  ⟨pihole_stats_fault_tolerance.1 allInactive PIHOLE_SERVICES
      CmdOutcome.missingBinary (fun _ => none) (Or.inl rfl),
   pihole_stats_fault_tolerance.2.2 allInactive PIHOLE_SERVICES
      (CmdOutcome.success "status")
      (fun _ => some [("dns_queries_today", JsonVal.num 5)])
      ("dns_queries_today", some (JsonVal.num 5)) (by decide)⟩

/-! ### The shared store as the HTTP handlers read it

The handlers read the `STATE` dict with `.get`, which returns `None`
for an absent key.  `StoreView` is that read view: the `system` entry
is a dict whose keys may each be absent (all absent initially, when the
entry is the empty dict `{}`), and the `pihole` / `pivpn` entries are
either absent records (initial `{}`) or full collector records. -/

/-- Read view of the `system` entry of the store: each field is what
`sys_s.get(key)` yields, so every field is optional (the initial empty
dict has them all absent; after a successful cycle, only `temp_c` and
`uptime_seconds` may still be absent). -/
structure SystemView where
  time : Option String
  cpu_percent : Option ℚ
  load_1 : Option ℚ
  load_5 : Option ℚ
  load_15 : Option ℚ
  mem_total : Option ℚ
  mem_used : Option ℚ
  mem_percent : Option ℚ
  disk_total : Option ℚ
  disk_used : Option ℚ
  disk_percent : Option ℚ
  temp_c : Option ℚ
  uptime_seconds : Option ℚ
  deriving DecidableEq

/-- The all-absent `system` view: the initial empty dict. -/
def emptySystemView : SystemView :=
  ⟨none, none, none, none, none, none, none, none, none, none, none,
   none, none⟩

/-- Read view of the whole shared `STATE` dict. -/
structure StoreView where
  system : SystemView
  pihole : Option PiholeRecord
  pivpn : Option PivpnRecord
  last_error : Option String
  deriving DecidableEq

/-- The store as created at process start: empty `system`, `pihole` and
`pivpn` dicts and no `last_error` key. -/
def initialStoreView : StoreView :=
  ⟨emptySystemView, none, none, none⟩

/-! ### Health projection (`bool_to_status`, `handle_health`) -/

/-- `bool_to_status`: `is True` ↦ OK, `is False` ↦ DOWN, anything else
(the absent field read as `None`) ↦ UNKNOWN. -/
def bool_to_status : Option Bool → String
  | some true => "OK"
  | some false => "DOWN"
  | none => "UNKNOWN"

/-- The JSON object produced by the `/health` handler. -/
structure HealthView where
  cpu_percent : Option ℚ
  mem_percent : Option ℚ
  disk_percent : Option ℚ
  temp_c : Option ℚ
  uptime_seconds : Option ℚ
  pihole_status : String
  pihole_stats : List (String × Option JsonVal)
  pivpn_status : String
  pivpn_connected_clients : Option ℕ
  overall_ok : Bool
  last_update : Option String
  last_error : Option String
  deriving DecidableEq

/-- `handle_health`: pure projection of the store view into the health
object.  `ph_s.get("service_ok")` is `st.pihole.map service_ok` (absent
when the entry is still the empty dict); `ph_s.get("stats", {})`
defaults to the empty mapping; `overall_ok` is the conjunction of the
two `is True` tests. -/
def handle_health (st : StoreView) : HealthView :=
  { cpu_percent := st.system.cpu_percent
    mem_percent := st.system.mem_percent
    disk_percent := st.system.disk_percent
    temp_c := st.system.temp_c
    uptime_seconds := st.system.uptime_seconds
    pihole_status := bool_to_status (st.pihole.map (fun r => r.service_ok))
    pihole_stats := (st.pihole.map (fun r => r.stats)).getD []
    pivpn_status := bool_to_status (st.pivpn.map (fun r => r.service_ok))
    pivpn_connected_clients := st.pivpn.bind (fun r => r.connected_clients)
    overall_ok :=
      (st.pihole.map (fun r => r.service_ok) == some true) &&
      (st.pivpn.map (fun r => r.service_ok) == some true)
    last_update := st.system.time
    last_error := st.last_error }

/-- C5: in the health projection each service's status is "OK" exactly
when its `service_ok` field reads as explicitly true, "DOWN" exactly
when explicitly false, and "UNKNOWN" exactly when the field is absent;
`overall_ok` is true exactly when both fields are explicitly true; and
on the initial all-empty store the projection yields a well-formed
value with UNKNOWN statuses, empty stats and absent numeric fields
rather than an error. -/
theorem health_projection_classification :
    (∀ st : StoreView,
      ((handle_health st).pihole_status = "OK" ↔
        st.pihole.map (fun r => r.service_ok) = some true) ∧
      ((handle_health st).pihole_status = "DOWN" ↔
        st.pihole.map (fun r => r.service_ok) = some false) ∧
      ((handle_health st).pihole_status = "UNKNOWN" ↔
        st.pihole.map (fun r => r.service_ok) = none) ∧
      ((handle_health st).pivpn_status = "OK" ↔
        st.pivpn.map (fun r => r.service_ok) = some true) ∧
      ((handle_health st).pivpn_status = "DOWN" ↔
        st.pivpn.map (fun r => r.service_ok) = some false) ∧
      ((handle_health st).pivpn_status = "UNKNOWN" ↔
        st.pivpn.map (fun r => r.service_ok) = none) ∧
      ((handle_health st).overall_ok = true ↔
        st.pihole.map (fun r => r.service_ok) = some true ∧
        st.pivpn.map (fun r => r.service_ok) = some true)) ∧
    handle_health initialStoreView =
      { cpu_percent := none, mem_percent := none, disk_percent := none,
        temp_c := none, uptime_seconds := none,
        pihole_status := "UNKNOWN", pihole_stats := [],
        pivpn_status := "UNKNOWN", pivpn_connected_clients := none,
        overall_ok := false, last_update := none, last_error := none } := by
  constructor
  · intro st
    have hcase : ∀ ob : Option Bool,
        (bool_to_status ob = "OK" ↔ ob = some true) ∧
        (bool_to_status ob = "DOWN" ↔ ob = some false) ∧
        (bool_to_status ob = "UNKNOWN" ↔ ob = none) := by
      intro ob
      rcases ob with _ | b
      · refine ⟨?_, ?_, ?_⟩ <;> simp [bool_to_status]
      · cases b <;> refine ⟨?_, ?_, ?_⟩ <;> simp [bool_to_status]
    refine ⟨(hcase _).1, (hcase _).2.1, (hcase _).2.2,
            (hcase _).1, (hcase _).2.1, (hcase _).2.2, ?_⟩
    show ((st.pihole.map (fun r => r.service_ok) == some true) &&
          (st.pivpn.map (fun r => r.service_ok) == some true)) = true ↔ _
    simp
  · rfl

/-! ### Metrics projection (`handle_metrics`)

The handler builds a list of `name value` lines and joins them with
newlines plus one final newline.  The textual rendering of a number
(Python's f-string formatting of a float) is modelled by a concrete
decimal/fraction rendering of the rational; the claims below depend
only on which lines are present and on the rendering containing no
newline, not on the digit syntax itself. -/

/-- Decimal digits of a natural number, most significant first. -/
def natChars (n : ℕ) : List Char :=
  if h : n < 10 then [Char.ofNat (48 + n)]
  else natChars (n / 10) ++ [Char.ofNat (48 + n % 10)]
  decreasing_by exact Nat.div_lt_self (by omega) (by omega)

/-- Rendering of a natural number. -/
def renderNat (n : ℕ) : String := ⟨natChars n⟩

/-- Rendering of an integer. -/
def renderInt : ℤ → String
  | Int.ofNat n => renderNat n
  | Int.negSucc n => "-" ++ renderNat (n + 1)

/-- Rendering of a rational metric value. -/
def renderQ (q : ℚ) : String :=
  if q.den = 1 then renderInt q.num
  else renderInt q.num ++ "/" ++ renderNat q.den

/-- A string that contains no newline character. -/
def nlFree (s : String) : Prop := ∀ c ∈ s.data, c ≠ '\n'

/-- Python's float() coercion applied to a scalar JSON value, as the
metrics handler's `float(v)` inside `try/except`: numbers pass through,
booleans coerce to 1/0, and the success of coercing a string is the
oracle `strFloat` (failure, like `float("N/A")`, skips the line). -/
def pyFloat (strFloat : String → Option ℚ) : JsonVal → Option ℚ
  | .num q => some q
  | .bool b => some (if b then 1 else 0)
  | .str s => strFloat s

/-- The unconditionally emitted system gauge lines, with 0 as filler
for an absent value. -/
def sysBlock (st : StoreView) : List (String × String) :=
  [("pi_cpu_percent", renderQ (st.system.cpu_percent.getD 0)),
   ("pi_load1", renderQ (st.system.load_1.getD 0)),
   ("pi_load5", renderQ (st.system.load_5.getD 0)),
   ("pi_load15", renderQ (st.system.load_15.getD 0)),
   ("pi_mem_percent", renderQ (st.system.mem_percent.getD 0)),
   ("pi_disk_percent", renderQ (st.system.disk_percent.getD 0))]

/-- The temperature line, emitted only when the reading is present. -/
def tempBlock (st : StoreView) : List (String × String) :=
  match st.system.temp_c with
  | some t => [("pi_temp_c", renderQ t)]
  | none => []

/-- The uptime line, emitted only when the reading is present. -/
def uptimeBlock (st : StoreView) : List (String × String) :=
  match st.system.uptime_seconds with
  | some u => [("pi_uptime_seconds", renderQ u)]
  | none => []

/-- The ad-blocker per-key stat lines: one line per allowlist key whose
stored value is present and coerces to a number. -/
def statsBlock (stats : List (String × Option JsonVal))
    (strFloat : String → Option ℚ) : List (String × String) :=
  PIHOLE_KEYS.filterMap (fun k =>
    match stats.lookup k with
    | some (some v) =>
        (pyFloat strFloat v).map (fun q => ("pihole_" ++ k, renderQ q))
    | some none => none
    | none => none)

/-- The VPN connected-clients line, emitted only when present. -/
def ccBlock (st : StoreView) : List (String × String) :=
  match st.pivpn.bind (fun r => r.connected_clients) with
  | some n => [("pivpn_connected_clients", renderNat n)]
  | none => []

/-- The `name value` pairs of the metrics projection, in the order the
handler appends them: system gauges, conditional temperature/uptime,
the ad-blocker liveness gauge (Python truthiness: absent or false ↦ 0),
the per-key stats, the VPN liveness gauge, and the conditional
connected-clients gauge. -/
def metricsPairs (st : StoreView)
    (strFloat : String → Option ℚ) : List (String × String) :=
  sysBlock st ++ tempBlock st ++ uptimeBlock st ++
  [("pihole_service_ok",
    if (st.pihole.map (fun r => r.service_ok)).getD false then "1" else "0")] ++
  statsBlock ((st.pihole.map (fun r => r.stats)).getD []) strFloat ++
  [("pivpn_service_ok",
    if (st.pivpn.map (fun r => r.service_ok)).getD false then "1" else "0")] ++
  ccBlock st

/-- The metric lines, each `name value`. -/
def metricsLines (st : StoreView)
    (strFloat : String → Option ℚ) : List String :=
  (metricsPairs st strFloat).map (fun p => p.1 ++ " " ++ p.2)

/-- Python's `"\n".join`. -/
def joinLines : List String → String
  | [] => ""
  | [l] => l
  | l :: m :: rest => l ++ "\n" ++ joinLines (m :: rest)

/-- `handle_metrics`: the complete metrics body,
`"\n".join(lines) + "\n"`. -/
def handle_metrics (st : StoreView)
    (strFloat : String → Option ℚ) : String :=
  joinLines (metricsLines st strFloat) ++ "\n"

/-! ### Newline-freeness of rendered lines -/

theorem natChars_ne_nil (n : ℕ) : natChars n ≠ [] := by
  rw [natChars]
  split
  · simp
  · simp

theorem natChars_no_newline (n : ℕ) : ∀ c ∈ natChars n, c ≠ '\n' := by
  induction n using Nat.strong_induction_on with
  | _ n ih =>
    intro c hc
    rw [natChars] at hc
    by_cases h : n < 10
    · rw [dif_pos h] at hc
      simp only [List.mem_singleton] at hc
      subst hc
      interval_cases n <;> decide
    · rw [dif_neg h] at hc
      rcases List.mem_append.mp hc with h1 | h2
      · exact ih (n / 10) (Nat.div_lt_self (by omega) (by omega)) c h1
      · simp only [List.mem_singleton] at h2
        subst h2
        have hm : n % 10 < 10 := Nat.mod_lt _ (by omega)
        generalize hd : n % 10 = d at hm
        interval_cases d <;> decide

theorem nlFree_append {a b : String} (ha : nlFree a) (hb : nlFree b) :
    nlFree (a ++ b) := by
  intro c hc
  rw [String.data_append] at hc
  rcases List.mem_append.mp hc with h | h
  · exact ha c h
  · exact hb c h

theorem renderNat_nlFree (n : ℕ) : nlFree (renderNat n) :=
  fun c hc => natChars_no_newline n c hc

theorem renderInt_nlFree (z : ℤ) : nlFree (renderInt z) := by
  cases z with
  | ofNat n => exact renderNat_nlFree n
  | negSucc n =>
    exact nlFree_append (by intro c hc; simp at hc; subst hc; decide)
      (renderNat_nlFree (n + 1))

theorem renderQ_nlFree (q : ℚ) : nlFree (renderQ q) := by
  unfold renderQ
  split
  · exact renderInt_nlFree q.num
  · exact nlFree_append
      (nlFree_append (renderInt_nlFree q.num)
        (by intro c hc; simp at hc; subst hc; decide))
      (renderNat_nlFree q.den)

theorem mem_statsBlock_names {stats : List (String × Option JsonVal)}
    {strFloat : String → Option ℚ} {x : String}
    (hx : x ∈ (statsBlock stats strFloat).map Prod.fst) :
    x ∈ ["pihole_dns_queries_today", "pihole_ads_blocked_today",
         "pihole_ads_percentage_today", "pihole_domains_being_blocked"] := by
  rcases List.mem_map.mp hx with ⟨p, hp, hpx⟩
  rcases List.mem_filterMap.mp hp with ⟨k, hk, hfk⟩
  have hfst : p.1 = "pihole_" ++ k := by
    cases hl : stats.lookup k with
    | none => rw [hl] at hfk; cases hfk
    | some ov =>
      cases ov with
      | none => rw [hl] at hfk; cases hfk
      | some v =>
        rw [hl] at hfk
        rcases Option.map_eq_some'.mp hfk with ⟨q, _, hq⟩
        rw [← hq]
  subst hpx
  rw [hfst]
  fin_cases hk <;> decide

theorem statsBlock_pair_props {stats : List (String × Option JsonVal)}
    {strFloat : String → Option ℚ} {p : String × String}
    (hp : p ∈ statsBlock stats strFloat) :
    p.1.data ≠ [] ∧ nlFree p.1 ∧ nlFree p.2 := by
  rcases List.mem_filterMap.mp hp with ⟨k, hk, hfk⟩
  cases hl : stats.lookup k with
  | none => rw [hl] at hfk; cases hfk
  | some ov =>
    cases ov with
    | none => rw [hl] at hfk; cases hfk
    | some v =>
      rw [hl] at hfk
      rcases Option.map_eq_some'.mp hfk with ⟨q, _, hq⟩
      rw [← hq]
      refine ⟨?_, ?_, renderQ_nlFree q⟩
      · show ("pihole_" ++ k).data ≠ []
        fin_cases hk <;> decide
      · show nlFree ("pihole_" ++ k)
        unfold nlFree
        fin_cases hk <;> decide

theorem pair_name_props {n v : String} (hn : n.data ≠ []) (h2 : nlFree n)
    (h3 : nlFree v) :
    (n, v).1.data ≠ [] ∧ nlFree (n, v).1 ∧ nlFree (n, v).2 :=
  ⟨hn, h2, h3⟩

theorem metricsPairs_props (st : StoreView) (strFloat : String → Option ℚ) :
    ∀ p ∈ metricsPairs st strFloat, p.1.data ≠ [] ∧ nlFree p.1 ∧ nlFree p.2 := by
  intro p hp
  unfold metricsPairs at hp
  simp only [List.append_assoc, List.mem_append] at hp
  rcases hp with hp | hp | hp | hp | hp | hp | hp
  · unfold sysBlock at hp
    simp only [List.mem_cons, List.not_mem_nil, or_false] at hp
    rcases hp with h | h | h | h | h | h <;>
      (subst h; exact pair_name_props (by decide) (by unfold nlFree; decide)
        (renderQ_nlFree _))
  · unfold tempBlock at hp
    cases ht : st.system.temp_c with
    | none => rw [ht] at hp; cases hp
    | some t =>
      rw [ht] at hp
      simp only [List.mem_singleton] at hp
      subst hp
      exact pair_name_props (by decide) (by unfold nlFree; decide)
        (renderQ_nlFree t)
  · unfold uptimeBlock at hp
    cases hu : st.system.uptime_seconds with
    | none => rw [hu] at hp; cases hp
    | some u =>
      rw [hu] at hp
      simp only [List.mem_singleton] at hp
      subst hp
      exact pair_name_props (by decide) (by unfold nlFree; decide)
        (renderQ_nlFree u)
  · simp only [List.mem_singleton] at hp
    subst hp
    exact pair_name_props (by decide) (by unfold nlFree; decide)
      (by unfold nlFree; split <;> decide)
  · exact statsBlock_pair_props hp
  · simp only [List.mem_singleton] at hp
    subst hp
    exact pair_name_props (by decide) (by unfold nlFree; decide)
      (by unfold nlFree; split <;> decide)
  · unfold ccBlock at hp
    cases hc : st.pivpn.bind (fun r => r.connected_clients) with
    | none => rw [hc] at hp; cases hp
    | some n =>
      rw [hc] at hp
      simp only [List.mem_singleton] at hp
      subst hp
      exact pair_name_props (by decide) (by unfold nlFree; decide)
        (renderNat_nlFree n)

theorem metricsLines_props (st : StoreView) (strFloat : String → Option ℚ) :
    ∀ l ∈ metricsLines st strFloat, l.data ≠ [] ∧ nlFree l := by
  intro l hl
  rcases List.mem_map.mp hl with ⟨p, hp, hpl⟩
  rcases metricsPairs_props st strFloat p hp with ⟨h1, h2, h3⟩
  subst hpl
  constructor
  · rw [String.data_append, String.data_append]
    intro habs
    exact h1 (List.append_eq_nil.mp (List.append_eq_nil.mp habs).1).1
  · exact nlFree_append (nlFree_append h2 (by unfold nlFree; decide)) h3

theorem joinLines_data_ne_nil :
    ∀ ls : List String, ls ≠ [] → (∀ l ∈ ls, l.data ≠ []) →
      (joinLines ls).data ≠ [] := by
  intro ls hne hprops
  match ls with
  | [l] => exact hprops l (List.mem_singleton.mpr rfl)
  | l :: m :: rest =>
    rw [joinLines, String.data_append, String.data_append]
    intro habs
    exact hprops l (List.mem_cons_self _ _)
      (List.append_eq_nil.mp (List.append_eq_nil.mp habs).1).1

theorem joinLines_getLast_ne_nl :
    ∀ ls : List String, ls ≠ [] → (∀ l ∈ ls, l.data ≠ [] ∧ nlFree l) →
      ∀ c, (joinLines ls).data.getLast? = some c → c ≠ '\n' := by
  intro ls
  induction ls with
  | nil => intro h; exact absurd rfl h
  | cons l rest ih =>
    intro _ hprops c hc
    match rest with
    | [] =>
      have hl := hprops l (List.mem_singleton.mpr rfl)
      exact hl.2 c (List.mem_of_mem_getLast? hc)
    | m :: rest2 =>
      rw [joinLines, String.data_append] at hc
      have hnn : (joinLines (m :: rest2)).data ≠ [] :=
        joinLines_data_ne_nil (m :: rest2) (by simp)
          (fun x hx => (hprops x (List.mem_cons_of_mem _ hx)).1)
      rw [String.data_append] at hc
      rw [List.append_assoc, List.getLast?_append_of_ne_nil _ (by
        intro habs
        exact hnn (List.append_eq_nil.mp habs).2)] at hc
      rw [List.getLast?_append_of_ne_nil _ hnn] at hc
      exact ih (by simp) (fun x hx => hprops x (List.mem_cons_of_mem _ hx)) c hc

/-- C6: for every store state the metrics text has a `pi_temp_c` line
exactly when the temperature is present and a `pi_uptime_seconds` line
exactly when the uptime is present, always has the `pi_cpu_percent`,
three load, `pi_mem_percent` and `pi_disk_percent` lines (0-filled when
absent, which the rendering of the `getD 0` default realises), and the
body is the newline-join of the lines followed by exactly one trailing
newline (the character before the final newline is never itself a
newline). -/
theorem metrics_emission_rule :
    ∀ (st : StoreView) (strFloat : String → Option ℚ),
      ("pi_temp_c" ∈ (metricsPairs st strFloat).map Prod.fst ↔
        st.system.temp_c.isSome = true) ∧
      ("pi_uptime_seconds" ∈ (metricsPairs st strFloat).map Prod.fst ↔
        st.system.uptime_seconds.isSome = true) ∧
      "pi_cpu_percent" ∈ (metricsPairs st strFloat).map Prod.fst ∧
      "pi_load1" ∈ (metricsPairs st strFloat).map Prod.fst ∧
      "pi_load5" ∈ (metricsPairs st strFloat).map Prod.fst ∧
      "pi_load15" ∈ (metricsPairs st strFloat).map Prod.fst ∧
      "pi_mem_percent" ∈ (metricsPairs st strFloat).map Prod.fst ∧
      "pi_disk_percent" ∈ (metricsPairs st strFloat).map Prod.fst ∧
      (∃ u : String, handle_metrics st strFloat = u ++ "\n" ∧
        ∀ c, u.data.getLast? = some c → c ≠ '\n') := by
  intro st strFloat
  refine ⟨?_, ?_, ?_, ?_, ?_, ?_, ?_, ?_, ?_⟩
  · cases ht : st.system.temp_c with
    | some t => simp [metricsPairs, tempBlock, ht, sysBlock]
    | none =>
      simp only [ht, Option.isSome_none, Bool.false_eq_true, iff_false]
      intro hmem
      simp only [metricsPairs, List.map_append, List.append_assoc,
        List.mem_append] at hmem
      rcases hmem with h | h | h | h | h | h | h
      · simp [sysBlock] at h
      · simp [tempBlock, ht] at h
      · unfold uptimeBlock at h
        cases hu : st.system.uptime_seconds with
        | none => rw [hu] at h; simp at h
        | some u => rw [hu] at h; simp at h
      · simp at h
      · have := mem_statsBlock_names h
        simp at this
      · simp at h
      · unfold ccBlock at h
        cases hcc : st.pivpn.bind (fun r => r.connected_clients) with
        | none => rw [hcc] at h; simp at h
        | some n => rw [hcc] at h; simp at h
  · cases hu : st.system.uptime_seconds with
    | some u => simp [metricsPairs, uptimeBlock, hu, sysBlock]
    | none =>
      simp only [hu, Option.isSome_none, Bool.false_eq_true, iff_false]
      intro hmem
      simp only [metricsPairs, List.map_append, List.append_assoc,
        List.mem_append] at hmem
      rcases hmem with h | h | h | h | h | h | h
      · simp [sysBlock] at h
      · unfold tempBlock at h
        cases ht : st.system.temp_c with
        | none => rw [ht] at h; simp at h
        | some t => rw [ht] at h; simp at h
      · simp [uptimeBlock, hu] at h
      · simp at h
      · have := mem_statsBlock_names h
        simp at this
      · simp at h
      · unfold ccBlock at h
        cases hcc : st.pivpn.bind (fun r => r.connected_clients) with
        | none => rw [hcc] at h; simp at h
        | some n => rw [hcc] at h; simp at h
  · simp [metricsPairs, sysBlock]
  · simp [metricsPairs, sysBlock]
  · simp [metricsPairs, sysBlock]
  · simp [metricsPairs, sysBlock]
  · simp [metricsPairs, sysBlock]
  · simp [metricsPairs, sysBlock]
  · refine ⟨joinLines (metricsLines st strFloat), rfl, ?_⟩
    intro c hc
    have hne : metricsLines st strFloat ≠ [] := by
      simp [metricsLines, metricsPairs, sysBlock]
    exact joinLines_getLast_ne_nl (metricsLines st strFloat) hne
      (metricsLines_props st strFloat) c hc

/-- Closed witness instantiating the metrics theorem at the initial
empty store: the unconditional CPU gauge is present and the temperature
line is governed by the (absent) temperature value. -/
theorem metrics_emission_rule_witness :
    "pi_cpu_percent" ∈
      (metricsPairs initialStoreView (fun _ => none)).map Prod.fst ∧
    ("pi_temp_c" ∈
        (metricsPairs initialStoreView (fun _ => none)).map Prod.fst ↔
      initialStoreView.system.temp_c.isSome = true) :=
  ⟨(metrics_emission_rule initialStoreView (fun _ => none)).2.2.1,
   (metrics_emission_rule initialStoreView (fun _ => none)).1⟩

/-! ### The shared `STATE` and the poll loop as a small-step system

`update_loop` runs forever; per iteration it first calls the three
collectors and only then performs, in order, the three dict-key
assignments `STATE["system"] = …`, `STATE["pihole"] = …`,
`STATE["pivpn"] = …`; if any collector raises, none of those
assignments has happened yet and the `except` branch performs the
single assignment `STATE["last_error"] = str(e)`.  Each dict-key
assignment is atomic (one bytecode store under the interpreter lock),
but a reader thread may run between any two of them.

The model below abstracts each stored record by the index (1-based) of
the poll cycle that produced it, with 0 standing for the initial empty
record; a cycle's outcome is `true` when all collectors returned and
`false` when one raised.  `readableStates` lists every store content a
concurrent reader can observe during a run, i.e. the states before,
between and after the individual assignments. -/

/-- The shared store: which cycle produced each entry (0 = the initial
empty dict), and which faulted cycle, if any, wrote `last_error`. -/
structure SharedState where
  system : ℕ
  pihole : ℕ
  pivpn : ℕ
  last_error : Option ℕ
  deriving DecidableEq

/-- One atomic dict-key assignment performed by `update_loop`. -/
inductive WriteStep where
  | wSystem (i : ℕ)
  | wPihole (i : ℕ)
  | wPivpn (i : ℕ)
  | wLastError (i : ℕ)
  deriving DecidableEq

/-- Effect of one assignment on the store. -/
def applyWrite (s : SharedState) : WriteStep → SharedState
  | .wSystem i => { s with system := i }
  | .wPihole i => { s with pihole := i }
  | .wPivpn i => { s with pivpn := i }
  | .wLastError i => { s with last_error := some i }

/-- The assignments cycle `i` performs: the three per-key record stores
on success, the single `last_error` store on a collector fault. -/
def cycleWrites (i : ℕ) (ok : Bool) : List WriteStep :=
  if ok then [.wSystem i, .wPihole i, .wPivpn i] else [.wLastError i]

/-- The assignments of a whole run, cycles numbered from `i`. -/
def traceWrites : ℕ → List Bool → List WriteStep
  | _, [] => []
  | i, ok :: rest => cycleWrites i ok ++ traceWrites (i + 1) rest

/-- The store at process start: three empty records, no `last_error`
key. -/
def initState : SharedState := ⟨0, 0, 0, none⟩

/-- Every store content along a write sequence, including the states
before the first and after the last assignment. -/
def statesAlong : SharedState → List WriteStep → List SharedState
  | s, [] => [s]
  | s, w :: ws => s :: statesAlong (applyWrite s w) ws

/-- Every store content a concurrent reader can observe during a run
with the given cycle outcomes. -/
def readableStates (outcomes : List Bool) : List SharedState :=
  statesAlong initState (traceWrites 1 outcomes)

/-- A store content whose three records come from one single cycle. -/
@[reducible]
def untorn (s : SharedState) : Prop :=
  s.system = s.pihole ∧ s.pihole = s.pivpn

/-- The net effect of one whole cycle on the store. -/
def runCycle (s : SharedState) (i : ℕ) (ok : Bool) : SharedState :=
  if ok then { s with system := i, pihole := i, pivpn := i }
  else { s with last_error := some i }

/-- The store after running the given cycles, numbered from `i`. -/
def runCycles : SharedState → ℕ → List Bool → SharedState
  | s, _, [] => s
  | s, i, ok :: rest => runCycles (runCycle s i ok) (i + 1) rest

/-- The store contents at cycle boundaries: before the run and after
each complete cycle, i.e. the read points that do not overlap any
cycle's assignment window. -/
def boundaryStates : SharedState → ℕ → List Bool → List SharedState
  | s, _, [] => [s]
  | s, i, ok :: rest => s :: boundaryStates (runCycle s i ok) (i + 1) rest

/-- The store after a whole run from process start. -/
def finalState (outcomes : List Bool) : SharedState :=
  runCycles initState 1 outcomes

/-- A cycle's micro-steps compose to its net effect. -/
theorem foldl_cycleWrites (s : SharedState) (i : ℕ) (ok : Bool) :
    List.foldl applyWrite s (cycleWrites i ok) = runCycle s i ok := by
  cases ok <;> (cases s; rfl)

theorem mem_statesAlong_self (s : SharedState) (ws : List WriteStep) :
    s ∈ statesAlong s ws := by
  cases ws <;> simp [statesAlong]

theorem mem_statesAlong_append_right :
    ∀ (ws₁ ws₂ : List WriteStep) (s x : SharedState),
      x ∈ statesAlong (List.foldl applyWrite s ws₁) ws₂ →
        x ∈ statesAlong s (ws₁ ++ ws₂) := by
  intro ws₁
  induction ws₁ with
  | nil => intro ws₂ s x h; exact h
  | cons w ws ih =>
    intro ws₂ s x h
    simp only [List.cons_append, statesAlong]
    exact List.mem_cons_of_mem s (ih ws₂ (applyWrite s w) x h)

theorem mem_boundary_mem_readable :
    ∀ (outcomes : List Bool) (i : ℕ) (s x : SharedState),
      x ∈ boundaryStates s i outcomes →
        x ∈ statesAlong s (traceWrites i outcomes) := by
  intro outcomes
  induction outcomes with
  | nil => intro i s x h; exact h
  | cons ok rest ih =>
    intro i s x h
    rcases List.mem_cons.mp h with h | h
    · subst h
      exact mem_statesAlong_self _ _
    · have hx := ih (i + 1) (runCycle s i ok) x h
      rw [← foldl_cycleWrites s i ok] at hx
      exact mem_statesAlong_append_right _ _ s x hx

theorem untorn_boundaryStates :
    ∀ (outcomes : List Bool) (i : ℕ) (s : SharedState), untorn s →
      ∀ x ∈ boundaryStates s i outcomes, untorn x := by
  intro outcomes
  induction outcomes with
  | nil =>
    intro i s hs x hx
    simp only [boundaryStates, List.mem_singleton] at hx
    subst hx; exact hs
  | cons ok rest ih =>
    intro i s hs x hx
    rcases List.mem_cons.mp hx with h | h
    · subst h; exact hs
    · refine ih (i + 1) (runCycle s i ok) ?_ x h
      cases ok
      · exact hs
      · exact ⟨rfl, rfl⟩

/-- C1 counterexample: with two consecutive successful poll cycles, a
reader running between the `system` and `pihole` assignments of cycle 2
observes the store content ⟨system from cycle 2, pihole from cycle 1,
pivpn from cycle 1⟩ — a reachable read that is neither the initial
store nor a single-cycle snapshot, so the no-tearing claim is false of
the code. -/
theorem snapshot_tearing_counterexample :
    ¬ (∀ s ∈ readableStates [true, true], untorn s ∨ s = initState) ∧
    (⟨2, 1, 1, none⟩ : SharedState) ∈ readableStates [true, true] ∧
    ¬ untorn (⟨2, 1, 1, none⟩ : SharedState) := by
  refine ⟨?_, by decide, by decide⟩
  intro h
  have := h ⟨2, 1, 1, none⟩ (by decide)
  revert this
  decide

/-- C1 (amended): a read that does not overlap any cycle's
three-assignment write window — i.e. one taken at a cycle boundary —
always observes a store whose three records are from one single cycle
(or all initial); tearing is possible only for reads interleaved with
the per-key assignments of one successful cycle. -/
theorem snapshot_untorn_at_cycle_boundaries :
    ∀ (outcomes : List Bool) (x : SharedState),
      x ∈ boundaryStates initState 1 outcomes →
        x ∈ readableStates outcomes ∧ untorn x :=
  fun outcomes x hx =>
    ⟨mem_boundary_mem_readable outcomes 1 initState x hx,
     untorn_boundaryStates outcomes 1 initState ⟨rfl, rfl⟩ x hx⟩

/-- Closed witness for the cycle-boundary theorem: the store after the
run ⟨fault, success⟩ is a readable, untorn snapshot. -/
theorem snapshot_untorn_at_cycle_boundaries_witness :
    (⟨2, 2, 2, some 1⟩ : SharedState) ∈ readableStates [false, true] ∧
    untorn (⟨2, 2, 2, some 1⟩ : SharedState) :=
  snapshot_untorn_at_cycle_boundaries [false, true] ⟨2, 2, 2, some 1⟩
    (by decide)

/-- C2 counterexample: after a faulted cycle 1 followed by a successful
cycle 2, the store's `last_error` still carries cycle 1's fault — the
successful cycle replaced the three records but did not touch
`last_error`, so not every field of the stored snapshot originates from
the successful cycle. -/
theorem last_error_retained_counterexample :
    finalState [false, true] = ⟨2, 2, 2, some 1⟩ ∧
    ¬ ((finalState [false, true]).last_error = none ∨
        (finalState [false, true]).last_error = some 2) := by
  exact ⟨by decide, by decide⟩

/-- C2 (amended): a successful poll cycle overwrites the `system`,
`pihole` and `pivpn` entries with that cycle's records, but as three
separate per-key assignments rather than one whole-value swap, and it
performs no write to `last_error`, which therefore retains whatever an
earlier faulted cycle stored. -/
theorem successful_cycle_per_key_replacement :
    ∀ (s : SharedState) (i : ℕ),
      cycleWrites i true =
        [WriteStep.wSystem i, WriteStep.wPihole i, WriteStep.wPivpn i] ∧
      List.foldl applyWrite s (cycleWrites i true) =
        { s with system := i, pihole := i, pivpn := i } ∧
      (runCycle s i true).last_error = s.last_error := by
  intro s i
  exact ⟨rfl, foldl_cycleWrites s i true, rfl⟩

/-- C10: a cycle in which a collector raises performs exactly one
write, to `last_error`; the `system`, `pihole` and `pivpn` entries are
left exactly as the previous cycles (or process start) produced them,
because in the source all three record assignments come after all three
collector calls. -/
theorem faulted_cycle_preserves_records :
    ∀ (s : SharedState) (i : ℕ),
      cycleWrites i false = [WriteStep.wLastError i] ∧
      List.foldl applyWrite s (cycleWrites i false) =
        { s with last_error := some i } ∧
      (runCycle s i false).system = s.system ∧
      (runCycle s i false).pihole = s.pihole ∧
      (runCycle s i false).pivpn = s.pivpn ∧
      (runCycle s i false).last_error = some i := by
  intro s i
  exact ⟨rfl, foldl_cycleWrites s i false, rfl, rfl, rfl, rfl⟩
